import Mathlib

/-!
Shallow embedding of the tmt step/plugin execution pipeline core:
the `Execute` and `Report` steps, `ExecutePlugin` result classification
(`check_shell`, `check_beakerlib`), result persistence (`save`/`load`),
requirement aggregation (`requires`), step waking (`wake`) and the
legacy execute-method normalization (`_map_old_methods`), translated
from `src/tmt/steps/execute/__init__.py` and
`src/tmt/steps/report/__init__.py`.
-/

namespace Tmt

/-- Step status values: `unset` (initial), `todo`, `done`
(src/tmt/steps: status tracking used by Execute.wake/go). -/
inductive Status
  | unset
  | todo
  | done
deriving DecidableEq, Repr

/-- The `log` entry of a result record: `check_shell` stores a single
path string, `check_beakerlib` stores a list of paths. -/
inductive ResultLog
  | one (path : String)
  | many (paths : List String)
deriving DecidableEq, Repr

/-- Modelled from the spec: the persisted result record
`{result: pass|fail|error, log: string|list of strings, duration: string,
note?: string}` (spec section 6, "Persisted results store"); the `tmt.Result`
class itself is not under src/. -/
structure ResultData where
  result : String
  log : ResultLog
  duration : Option String
  note : Option String
deriving DecidableEq, Repr

/-- Modelled from the spec: `tmt.Result` value object (spec section 3):
test name plus the outcome record; `Result(data, name)` stores the record,
`export()` returns it. The class body is not under src/. -/
structure Result where
  name : String
  result : String
  log : ResultLog
  duration : Option String
  note : Option String
deriving DecidableEq, Repr

/-- `Result.export()`: the record written to the results store (everything
except the name, which becomes the mapping key in `Execute.save`). -/
def Result.export (r : Result) : ResultData :=
  ⟨r.result, r.log, r.duration, r.note⟩

/-- `Result(data, test)`: reconstruct a result from an exported record and
its mapping key, as done in `Execute.load`. -/
def Result.ofData (d : ResultData) (name : String) : Result :=
  ⟨name, d.result, d.log, d.duration, d.note⟩

/-- The fields of `tmt.Test` consumed by the classification code:
`name`, `returncode`, `duration` (configured limit, quoted in the timeout
hint), `real_duration` (measured, stored in the result record). -/
structure Test where
  name : String
  returncode : Int
  duration : String
  real_duration : String
deriving DecidableEq, Repr

/-- Modelled from the spec: `tmt.utils.PROCESS_TIMEOUT`, the sentinel
exit code meaning the test process was killed by the per-test timeout;
spec section 8 names it concretely as exit code 124. `tmt.utils` is not
under src/. -/
def PROCESS_TIMEOUT : Int := 124

/-- The main test output filename (`TEST_OUTPUT_FILENAME = 'output.txt'`). -/
def TEST_OUTPUT_FILENAME : String := "output.txt"

/-- `test.name.lstrip('/')`: drop the leading slash characters. -/
def stripLeadingSlashes (s : String) : String :=
  (s.toList.dropWhile (fun c => c = '/')).asString

/-- `ExecutePlugin.data_path(test, filename)` relative form:
`data/<test-name-without-leading-slash>/<filename>`. -/
def data_path_rel (testName filename : String) : String :=
  "data/" ++ stripLeadingSlashes testName ++ "/" ++ filename

/-- `ExecutePlugin.data_path(test, filename, full=True)`:
the relative path anchored at the step workdir. -/
def data_path_full (workdir testName filename : String) : String :=
  workdir ++ "/" ++ data_path_rel testName filename

/-- `ExecutePlugin.timeout_hint(test)`: the advisory text appended to the
test's output log when the process timed out. -/
def timeoutHintText (test : Test) : String :=
  "\nMaximum test time \x27" ++ test.duration ++ "\x27 exceeded.\n" ++
  "Adjust the test \x27duration\x27 attribute if necessary.\n" ++
  "https://tmt.readthedocs.io/en/stable/spec/tests.html#duration\n"

/-- `ExecutePlugin.check_shell(test)`: classify by exit code
(`{0: 'pass', 1: 'fail'}` with `KeyError` falling back to `'error'`;
on the timeout sentinel additionally set note `'timeout'` and append the
duration hint to the output log).  Returns the result together with the
list of `(path, text)` appends performed by `timeout_hint`. -/
def check_shell (workdir : String) (test : Test) :
    Result × List (String × String) :=
  let log := ResultLog.one (data_path_rel test.name TEST_OUTPUT_FILENAME)
  let duration := some test.real_duration
  if test.returncode = 0 then
    (⟨test.name, "pass", log, duration, none⟩, [])
  else if test.returncode = 1 then
    (⟨test.name, "fail", log, duration, none⟩, [])
  else if test.returncode = PROCESS_TIMEOUT then
    (⟨test.name, "error", log, duration, some "timeout"⟩,
     [(data_path_full workdir test.name TEST_OUTPUT_FILENAME,
       timeoutHintText test)])
  else
    (⟨test.name, "error", log, duration, none⟩, [])

/-- Python regex `\w` word character (ASCII range: letters, digits,
underscore). -/
def isWordChar (c : Char) : Bool :=
  c.isAlphanum || c = '_'

/-- The literal part of the pattern `TESTRESULT_RESULT_STRING=(.*)`. -/
def RESULT_STRING_PAT : List Char := "TESTRESULT_RESULT_STRING=".toList

/-- The literal part of the pattern `TESTRESULT_STATE="?(\w+)"?`. -/
def STATE_PAT : List Char := "TESTRESULT_STATE=".toList

/-- `re.search('TESTRESULT_RESULT_STRING=(.*)', results)`: find the leftmost
occurrence of the literal key and capture the rest of that line (`.` does not
match a newline). -/
def findResultString : List Char → Option (List Char)
  | [] => none
  | c :: rest =>
    if RESULT_STRING_PAT.isPrefixOf (c :: rest) then
      some (((c :: rest).drop RESULT_STRING_PAT.length).takeWhile
        (fun ch => ch ≠ '\n'))
    else
      findResultString rest

/-- Match of `"?(\w+)"?` at a fixed position: greedy optional quote, then at
least one word character (with backtracking: a quote followed by a non-word
character falls back to requiring the quote itself to be a word character,
which fails). -/
def stateCaptureAt : List Char → Option (List Char)
  | [] => none
  | c :: rest =>
    if c = '"' then
      match rest with
      | [] => none
      | r :: _ => if isWordChar r then some (rest.takeWhile isWordChar) else none
    else if isWordChar c then
      some ((c :: rest).takeWhile isWordChar)
    else
      none

/-- `re.search(r'TESTRESULT_STATE="?(\w+)"?', results)`: leftmost position
where the whole pattern matches; the state value may be quoted or unquoted. -/
def findState : List Char → Option (List Char)
  | [] => none
  | c :: rest =>
    if STATE_PAT.isPrefixOf (c :: rest) then
      match stateCaptureAt ((c :: rest).drop STATE_PAT.length) with
      | some w => some w
      | none => findState rest
    else
      findState rest

/-- Python `str.lower()` restricted to the ASCII case used by beakerlib
result strings. -/
def lowerChars (s : List Char) : String :=
  (s.map Char.toLower).asString

/-- `ExecutePlugin.check_beakerlib(test)`: read the `TestResults` file
(`testResultsRead` is the outcome of `self.read`, `.error` meaning
`tmt.utils.FileError`), collect existing logs, parse
`TESTRESULT_RESULT_STRING` and `TESTRESULT_STATE`, then classify with the
precedence: unreadable file, missing field, timeout sentinel, non-complete
state, lower-cased result string.  Returns the result and the appends
performed by `timeout_hint`. -/
def check_beakerlib (workdir : String) (test : Test)
    (testResultsRead : Except String (List Char))
    (outputExists journalExists : Bool) :
    Result × List (String × String) :=
  let logs :=
    (if outputExists
     then [data_path_rel test.name TEST_OUTPUT_FILENAME] else []) ++
    (if journalExists then [data_path_rel test.name "journal.txt"] else [])
  let log := ResultLog.many logs
  let duration := some test.real_duration
  match testResultsRead with
  | Except.error _ =>
    (⟨test.name, "error", log, duration,
      some "beakerlib: TestResults FileError"⟩, [])
  | Except.ok content =>
    match findResultString content, findState content with
    | some result, some state =>
      if test.returncode = PROCESS_TIMEOUT then
        (⟨test.name, "error", log, duration, some "timeout"⟩,
         [(data_path_full workdir test.name TEST_OUTPUT_FILENAME,
           timeoutHintText test)])
      else if state ≠ "complete".toList then
        (⟨test.name, "error", log, duration,
          some ("beakerlib: State \x27" ++ state.asString ++ "\x27")⟩, [])
      else
        (⟨test.name, lowerChars result, log, duration, none⟩, [])
    | _, _ =>
      (⟨test.name, "error", log, duration,
        some "beakerlib: Result/State missing"⟩, [])

/-- Python `dict` insertion: a duplicate key updates the stored value in
place (keeping the key's original position), a fresh key is appended. -/
def dictInsert (acc : List (String × ResultData)) (kv : String × ResultData) :
    List (String × ResultData) :=
  if acc.any (fun p => p.1 = kv.1) then
    acc.map (fun p => if p.1 = kv.1 then (p.1, kv.2) else p)
  else
    acc ++ [kv]

/-- Python `dict([(k, v), ...])` over an association list, preserving first
insertion order (Python 3.7+ dict semantics). -/
def dictOfList (l : List (String × ResultData)) : List (String × ResultData) :=
  l.foldl dictInsert []

/-- `Execute.save`: the mapping written to `results.yaml` —
`dict([(result.name, result.export()) for result in self.results()])`.
The YAML serialization itself is modelled from the spec as
order-preserving ("read back verbatim on load()", spec section 6);
`tmt.utils.dict_to_yaml` is not under src/. -/
def Execute.saveStore (results : List Result) : List (String × ResultData) :=
  dictOfList (results.map (fun r => (r.name, r.export)))

/-- In-memory state of the `Execute` step relevant to `go`/`load`:
its status and the accumulated `_results` list. -/
structure ExecuteState where
  status : Status
  results : List Result
deriving DecidableEq, Repr

/-- `Execute.load`: read `results.yaml` (the `Except.error` case models
`tmt.utils.FileError` on an absent or unreadable file, which is caught and
only logged) and rebuild `_results` as
`[tmt.Result(data, test) for test, data in results.items()]`. -/
def Execute.load (st : ExecuteState)
    (fileRead : Except String (List (String × ResultData))) : ExecuteState :=
  match fileRead with
  | Except.error _ => st
  | Except.ok store =>
    { st with results := store.map (fun td => Result.ofData td.2 td.1) }

/-- One phase of the `Execute` step as seen by `Execute.go`: whether it is
an `ExecutePlugin` (the `isinstance` check guarding result collection),
whether it is enabled on a given guest (`phase.enabled_on_guest(guest)`,
guests identified by a natural number), the results its `go(guest)` leaves
in `phase.results()`, and its `requires()` list. -/
structure Phase where
  isExecutePlugin : Bool
  enabled : Nat → Bool
  resultsOn : Nat → List Result
  requires : List String

/-- Modelled from the spec: `fmf.utils.listed(results, 'test')` renders a
count with a pluralized noun (external `fmf` helper). -/
def listed (n : Nat) : String :=
  toString n ++ (if n = 1 then " test" else " tests")

/-- `Execute.summary()`: the summary message `'{tests} executed'`. -/
def summaryLine (results : List Result) : String :=
  listed results.length ++ " executed"

/-- Inner loop of `Execute.go` for one guest: iterate the phases in order,
invoke `phase.go(guest)` on each phase enabled on the guest (recorded in the
trace as `(guest, phase index)`), and extend the result list with
`phase.results()` when the phase is an `ExecutePlugin`. -/
def runPhasesOnGuest (g : Nat) : List (Nat × Phase) →
    List (Nat × Nat) × List Result
  | [] => ([], [])
  | ip :: rest =>
    let tail := runPhasesOnGuest g rest
    if ip.2.enabled g then
      ((g, ip.1) :: tail.1,
       (if ip.2.isExecutePlugin then ip.2.resultsOn g else []) ++ tail.2)
    else
      tail

/-- Outer loop of `Execute.go`: guests in order, phases in order within
each guest. -/
def runLoop (phases : List (Nat × Phase)) : List Nat →
    List (Nat × Nat) × List Result
  | [] => ([], [])
  | g :: gs =>
    let here := runPhasesOnGuest g phases
    let rest := runLoop phases gs
    (here.1 ++ rest.1, here.2 ++ rest.2)

/-- Successful outcome of `Execute.go`: the new step state, the emitted
info lines, the trace of `phase.go(guest)` invocations, and the results
stores written by `save()` during the call. -/
structure ExecGoOk where
  st : ExecuteState
  output : List String
  invoked : List (Nat × Nat)
  saves : List (List (String × ResultData))
deriving Repr

/-- Outcome of `Execute.go`: either success or a raised
`tmt.utils.ExecuteError`, which carries the step state, invocation trace and
saves as of the raise. -/
inductive ExecGoResult
  | ok (o : ExecGoOk)
  | err (msg : String) (st : ExecuteState) (invoked : List (Nat × Nat))
      (saves : List (List (String × ResultData)))
deriving Repr

/-- `Execute.go()`: when the status is already `done`, re-emit the status
line and summary and return; otherwise require at least one guest (raising
`ExecuteError` if none), run every enabled phase on every guest extending
`_results`, then summarize, set status `done` and `save()`. -/
def Execute.go (st : ExecuteState) (guests : List Nat)
    (phases : List Phase) : ExecGoResult :=
  if st.status = Status.done then
    ExecGoResult.ok ⟨st, ["status: done", summaryLine st.results], [], []⟩
  else if guests.isEmpty then
    ExecGoResult.err "No guests available for execution." st [] []
  else
    let run := runLoop phases.enum guests
    let newResults := st.results ++ run.2
    ExecGoResult.ok
      ⟨⟨Status.done, newResults⟩, [summaryLine newResults], run.1,
       [Execute.saveStore newResults]⟩

/-- Python `set()` built by iterated `update` then `list(...)`, modelled as
first-insertion-order deduplication (the claims only depend on the set of
elements and duplicate-freeness, both independent of enumeration order). -/
def pySetOfList (l : List String) : List String :=
  l.foldl (fun acc x => if x ∈ acc then acc else acc ++ [x]) []

/-- `Execute.requires()`: the union of `plugin.requires()` over the phases
that are `ExecutePlugin` instances (`self.phases(classes=ExecutePlugin)`),
returned as a duplicate-free list. -/
def Execute.requires (phases : List Phase) : List String :=
  pySetOfList ((phases.filter (fun p => p.isExecutePlugin)).flatMap
    (fun p => p.requires))

/-- Modelled from the spec: `tmt.base.Result.summary` renders a human
count breakdown per outcome from the accumulated results (spec sections
4.5 and 8); the class body is not under src/. -/
def resultSummary (results : List Result) : String :=
  toString (results.filter (fun r => r.result = "pass")).length ++
  " passed, " ++
  toString (results.filter (fun r => r.result = "fail")).length ++
  " failed, " ++
  toString (results.filter (fun r => r.result = "error")).length ++
  " errored"

/-- One phase of the `Report` step: whether it is a `ReportPlugin`
(the `classes=ReportPlugin` filter in `Report.requires`) and its
`requires()` list. -/
structure ReportPhase where
  isReportPlugin : Bool
  requires : List String
deriving DecidableEq, Repr

/-- In-memory state of the `Report` step relevant to `go`: its status and
the execute step's accumulated results it reports on
(`self.plan.execute.results()`). -/
structure ReportState where
  status : Status
  execResults : List Result
deriving DecidableEq, Repr

/-- Outcome of `Report.go`: the new step state, the emitted info lines,
the indices of the phases whose `go()` was invoked, and whether `save()`
was called. -/
structure ReportGoOut where
  st : ReportState
  output : List String
  invoked : List Nat
  saved : Bool
deriving DecidableEq, Repr

/-- `Report.go()`: when the status is already `done`, re-emit the status
line and summary and return without mutation; otherwise invoke every
phase's `go()` in order, summarize, set status `done` and `save()`. -/
def Report.go (st : ReportState) (phases : List ReportPhase) : ReportGoOut :=
  if st.status = Status.done then
    ⟨st, ["status: done", resultSummary st.execResults], [], false⟩
  else
    ⟨⟨Status.done, st.execResults⟩, [resultSummary st.execResults],
     List.range phases.length, true⟩

/-- `Report.requires()`: the union of `plugin.requires()` over the phases
that are `ReportPlugin` instances, returned as a duplicate-free list. -/
def Report.requires (phases : List ReportPhase) : List String :=
  pySetOfList ((phases.filter (fun p => p.isReportPlugin)).flatMap
    (fun p => p.requires))

/-- One step configuration record as consumed by `_map_old_methods` and
`ExecutePlugin.delegate`: its `how` field. -/
structure StepData where
  how : String
deriving DecidableEq, Repr

/-- Default test framework (`DEFAULT_FRAMEWORK = 'shell'`). -/
def DEFAULT_FRAMEWORK : String := "shell"

/-- The regex `^(shell|beakerlib)(\.tmt)?$` of `_map_old_methods`: it
matches exactly the four legacy method names, capturing the framework. -/
def matchOldMethod (how : String) : Option String :=
  if how = "shell" ∨ how = "shell.tmt" then some "shell"
  else if how = "beakerlib" ∨ how = "beakerlib.tmt" then some "beakerlib"
  else none

/-- `Execute._map_old_methods()`: if `data[0]['how']` matches a legacy
method name, rewrite it to `'tmt'` and record the matched framework as
`_framework`; otherwise leave both unchanged. -/
def mapOldMethods (d : StepData) (framework : String) : StepData × String :=
  match matchOldMethod d.how with
  | none => (d, framework)
  | some fw => (⟨"tmt"⟩, fw)

/-- `Execute.__init__`: `_framework` starts as `DEFAULT_FRAMEWORK` and
`_map_old_methods` runs immediately only when there is no run
(`if not self.plan.my_run`); with a run, normalization is deferred to
`wake()`. -/
def Execute.init (myRun : Bool) (d : StepData) : StepData × String :=
  if myRun then (d, DEFAULT_FRAMEWORK)
  else mapOldMethods d DEFAULT_FRAMEWORK

/-- State consumed by `Execute.wake`: status, the configuration records,
the current `_framework`, and the plan name (quoted in the
`SpecificationError` message). -/
structure WakeState where
  status : Status
  data : List StepData
  framework : String
  planName : String
deriving DecidableEq, Repr

/-- Successful outcome of `Execute.wake`: the updated status, data and
framework, the `how` values handed to `ExecutePlugin.delegate` in order,
and whether `save()` was called. -/
structure WakeOk where
  status : Status
  data : List StepData
  framework : String
  resolved : List String
  saved : Bool
deriving DecidableEq, Repr

/-- Outcome of `Execute.wake`: either success or a raised error, which
carries the `how` values resolved before the raise. -/
inductive WakeResult
  | ok (o : WakeOk)
  | err (msg : String) (resolved : List String)
deriving DecidableEq, Repr

/-- `Execute.wake()`: raise `SpecificationError` when more than one
configuration record exists; otherwise run `_map_old_methods` and only then
resolve the single plugin via `ExecutePlugin.delegate` on the (normalized)
first record; leave a `done` status untouched, otherwise set `todo` and
`save()`.  (An empty `data` list would raise `IndexError` at `data[0]` in
the source; modelled as an error.) -/
def Execute.wake (st : WakeState) : WakeResult :=
  if st.data.length > 1 then
    WakeResult.err
      ("Multiple execute steps defined in \x27" ++ st.planName ++ "\x27.") []
  else
    match st.data with
    | [] => WakeResult.err "IndexError" []
    | d :: rest =>
      let m := mapOldMethods d st.framework
      let resolved := [m.1.how]
      if st.status = Status.done then
        WakeResult.ok ⟨st.status, m.1 :: rest, m.2, resolved, false⟩
      else
        WakeResult.ok ⟨Status.todo, m.1 :: rest, m.2, resolved, true⟩

/-- A concrete always-enabled execute phase producing one result per
guest, used as a fixture in concrete instantiations. -/
def fanoutPhase : Phase :=
  ⟨true, fun _ => true,
   fun g => [⟨toString g, "pass", ResultLog.one "p", none, none⟩], []⟩

/-! Claim theorems -/

/-- C1: For an Execute or Report step whose status is already `done`,
`go()` performs no mutation: the step state (results list included) is
returned unchanged, no phase is invoked, no results store is written
(no `save()`), and the emitted output is the status line plus the summary
computed from the unchanged results — hence a second call yields exactly
the same outcome. -/
theorem go_idempotent_once_done (est : ExecuteState) (guests : List Nat)
    (phases : List Phase) (rst : ReportState) (rphases : List ReportPhase)
    (he : est.status = Status.done) (hr : rst.status = Status.done) :
    Execute.go est guests phases =
      ExecGoResult.ok
        ⟨est, ["status: done", summaryLine est.results], [], []⟩ ∧
    Report.go rst rphases =
      ⟨rst, ["status: done", resultSummary rst.execResults], [], false⟩ := by
  constructor
  · simp [Execute.go, he]
  · simp [Report.go, hr]

/-- Witness for C1 at a concrete done Execute state and done Report state. -/
theorem go_idempotent_once_done_witness :
    Execute.go ⟨Status.done, []⟩ [] [] =
      ExecGoResult.ok
        ⟨⟨Status.done, []⟩, ["status: done", summaryLine []], [], []⟩ ∧
    Report.go ⟨Status.done, []⟩ [] =
      ⟨⟨Status.done, []⟩, ["status: done", resultSummary []], [], false⟩ :=
  go_idempotent_once_done ⟨Status.done, []⟩ [] [] ⟨Status.done, []⟩ [] rfl rfl

/-- C2: `check_shell` classifies every exit code totally: `pass` iff 0,
`fail` iff 1, `error` otherwise; and the result carries note `timeout`
together with the duration-increase hint appended to the test's output log
exactly when the exit code equals the process-timeout sentinel. -/
theorem check_shell_classification (workdir : String) (t : Test) :
    ((check_shell workdir t).1.result = "pass" ↔ t.returncode = 0) ∧
    ((check_shell workdir t).1.result = "fail" ↔ t.returncode = 1) ∧
    ((check_shell workdir t).1.result = "error" ↔
      (t.returncode ≠ 0 ∧ t.returncode ≠ 1)) ∧
    (((check_shell workdir t).1.note = some "timeout" ∧
      (check_shell workdir t).2 =
        [(data_path_full workdir t.name TEST_OUTPUT_FILENAME,
          timeoutHintText t)]) ↔ t.returncode = PROCESS_TIMEOUT) ∧
    (((check_shell workdir t).1.note = none ∧
      (check_shell workdir t).2 = []) ↔ t.returncode ≠ PROCESS_TIMEOUT) := by
  by_cases h0 : t.returncode = 0 <;>
    by_cases h1 : t.returncode = 1 <;>
    by_cases ht : t.returncode = PROCESS_TIMEOUT <;>
    simp_all [check_shell, PROCESS_TIMEOUT]

/-- Witness for C2: the timeout sentinel exit code 124 yields the
`timeout` note and the appended duration hint. -/
theorem check_shell_classification_witness :
    (check_shell "/w" ⟨"/t", 124, "5m", "1s"⟩).1.note = some "timeout" ∧
    (check_shell "/w" ⟨"/t", 124, "5m", "1s"⟩).2 =
      [(data_path_full "/w" "/t" TEST_OUTPUT_FILENAME,
        timeoutHintText ⟨"/t", 124, "5m", "1s"⟩)] :=
  ((check_shell_classification "/w" ⟨"/t", 124, "5m", "1s"⟩).2.2.2.1).mpr rfl

/-- C4: `Execute.go()` on a step not yet `done` with zero guests raises
the execution error "No guests available for execution.", leaving the step
state (status and results) unchanged, with no phase invoked and nothing
saved. -/
theorem execute_go_no_guests (st : ExecuteState) (guests : List Nat)
    (phases : List Phase)
    (h1 : st.status ≠ Status.done) (h2 : guests = []) :
    Execute.go st guests phases =
      ExecGoResult.err "No guests available for execution." st [] [] := by
  subst h2
  simp [Execute.go, h1]

/-- Witness for C4 at a concrete todo state with no guests. -/
theorem execute_go_no_guests_witness :
    Execute.go ⟨Status.todo, []⟩ [] [] =
      ExecGoResult.err "No guests available for execution."
        ⟨Status.todo, []⟩ [] [] :=
  execute_go_no_guests ⟨Status.todo, []⟩ [] [] (by decide) rfl

/-- C8: `Execute.wake()` with more than one configuration record raises
the specification error naming the plan, before any plugin is resolved
(the resolved list at the raise is empty) and before any execution. -/
theorem execute_wake_multiple_configs (st : WakeState)
    (h : st.data.length > 1) :
    Execute.wake st =
      WakeResult.err
        ("Multiple execute steps defined in \x27" ++ st.planName ++ "\x27.")
        [] := by
  unfold Execute.wake
  rw [if_pos h]

/-- Witness for C8 at a concrete state with two configuration records. -/
theorem execute_wake_multiple_configs_witness :
    Execute.wake ⟨Status.unset, [⟨"tmt"⟩, ⟨"shell"⟩], "shell", "/plan"⟩ =
      WakeResult.err
        ("Multiple execute steps defined in \x27" ++ "/plan" ++ "\x27.") [] :=
  execute_wake_multiple_configs
    ⟨Status.unset, [⟨"tmt"⟩, ⟨"shell"⟩], "shell", "/plan"⟩ (by decide)

/-- C10: if reading the persisted results file fails
(`tmt.utils.FileError`, absent or unreadable file), `Execute.load`
completes normally with the state unchanged, so a freshly initialized
step (empty `_results`) still reports an empty results list. -/
theorem execute_load_missing_results (st : ExecuteState) (e : String)
    (h : st.results = []) :
    Execute.load st (Except.error e) = st ∧
    (Execute.load st (Except.error e)).results = [] :=
  ⟨rfl, h⟩

/-- Witness for C10 at a freshly initialized state. -/
theorem execute_load_missing_results_witness :
    Execute.load ⟨Status.unset, []⟩ (Except.error "results.yaml") =
      ⟨Status.unset, []⟩ ∧
    (Execute.load ⟨Status.unset, []⟩
      (Except.error "results.yaml")).results = [] :=
  execute_load_missing_results ⟨Status.unset, []⟩ "results.yaml" rfl

/-- C9: legacy-method normalization maps `shell`, `beakerlib`,
`shell.tmt`, `beakerlib.tmt` to how `tmt` recording the matched framework;
in `__init__` it runs exactly when no run exists; `wake()` applies it
before plugin resolution (the delegate receives the normalized record and
its `how`); and it is idempotent, so re-waking an already-normalized
(resumed) configuration preserves the originally resolved how/framework
mapping unchanged. -/
theorem legacy_method_normalization :
    (∀ d, Execute.init true d = (d, DEFAULT_FRAMEWORK)) ∧
    (∀ d, Execute.init false d = mapOldMethods d DEFAULT_FRAMEWORK) ∧
    (∀ fw, mapOldMethods ⟨"shell"⟩ fw = (⟨"tmt"⟩, "shell") ∧
      mapOldMethods ⟨"shell.tmt"⟩ fw = (⟨"tmt"⟩, "shell") ∧
      mapOldMethods ⟨"beakerlib"⟩ fw = (⟨"tmt"⟩, "beakerlib") ∧
      mapOldMethods ⟨"beakerlib.tmt"⟩ fw = (⟨"tmt"⟩, "beakerlib")) ∧
    (∀ status d fw pn,
      Execute.wake ⟨status, [d], fw, pn⟩ =
        WakeResult.ok
          ⟨if status = Status.done then status else Status.todo,
           [(mapOldMethods d fw).1], (mapOldMethods d fw).2,
           [(mapOldMethods d fw).1.how],
           if status = Status.done then false else true⟩) ∧
    (∀ d fw,
      mapOldMethods (mapOldMethods d fw).1 (mapOldMethods d fw).2 =
        mapOldMethods d fw) := by
  refine ⟨fun d => rfl, fun d => rfl, fun fw => ⟨rfl, rfl, rfl, rfl⟩,
    fun status d fw pn => ?_, fun d fw => ?_⟩
  · unfold Execute.wake
    by_cases h : status = Status.done <;> simp [h]
  · unfold mapOldMethods
    cases h : matchOldMethod d.how with
    | none => simp [h]
    | some fw2 => simp [matchOldMethod]

/-- Helper: the fold building a Python set preserves duplicate-freeness. -/
theorem pySet_foldl_nodup (l : List String) :
    ∀ acc : List String, acc.Nodup →
    (l.foldl (fun a x => if x ∈ a then a else a ++ [x]) acc).Nodup := by
  induction l with
  | nil => intro acc h; simpa using h
  | cons y ys ih =>
    intro acc h
    simp only [List.foldl_cons]
    by_cases hy : y ∈ acc
    · rw [if_pos hy]; exact ih acc h
    · rw [if_neg hy]
      exact ih (acc ++ [y]) (by simp [List.nodup_append, h, hy])

/-- Helper: membership in the fold building a Python set. -/
theorem pySet_foldl_mem (l : List String) (x : String) :
    ∀ acc : List String,
    (x ∈ l.foldl (fun a y => if y ∈ a then a else a ++ [y]) acc ↔
      x ∈ acc ∨ x ∈ l) := by
  induction l with
  | nil => intro acc; simp
  | cons y ys ih =>
    intro acc
    simp only [List.foldl_cons]
    by_cases hy : y ∈ acc
    · rw [if_pos hy, ih]
      constructor
      · rintro (h | h)
        · exact Or.inl h
        · exact Or.inr (List.mem_cons_of_mem y h)
      · rintro (h | h)
        · exact Or.inl h
        · rcases List.mem_cons.mp h with rfl | h
          · exact Or.inl hy
          · exact Or.inr h
    · rw [if_neg hy, ih]
      simp [List.mem_append, List.mem_cons, or_assoc]

/-- C7: `requires()` on Execute and on Report returns a duplicate-free
list whose elements are exactly the union of the requirement lists of the
phases of the matching plugin class, independent of overlap or input
order (the characterization is purely set-theoretic). -/
theorem requires_dedup_union (eph : List Phase) (rph : List ReportPhase) :
    (Execute.requires eph).Nodup ∧
    (∀ x, x ∈ Execute.requires eph ↔
      ∃ p, p ∈ eph ∧ p.isExecutePlugin = true ∧ x ∈ p.requires) ∧
    (Report.requires rph).Nodup ∧
    (∀ x, x ∈ Report.requires rph ↔
      ∃ p, p ∈ rph ∧ p.isReportPlugin = true ∧ x ∈ p.requires) := by
  refine ⟨pySet_foldl_nodup _ [] List.nodup_nil, fun x => ?_,
    pySet_foldl_nodup _ [] List.nodup_nil, fun x => ?_⟩
  · rw [Execute.requires, pySetOfList, pySet_foldl_mem]
    simp only [List.mem_nil_iff, false_or, List.mem_flatMap,
      List.mem_filter]
    constructor
    · rintro ⟨p, ⟨hp, hfilter⟩, hx⟩
      exact ⟨p, hp, hfilter, hx⟩
    · rintro ⟨p, hp, hfilter, hx⟩
      exact ⟨p, ⟨hp, hfilter⟩, hx⟩
  · rw [Report.requires, pySetOfList, pySet_foldl_mem]
    simp only [List.mem_nil_iff, false_or, List.mem_flatMap,
      List.mem_filter]
    constructor
    · rintro ⟨p, ⟨hp, hfilter⟩, hx⟩
      exact ⟨p, hp, hfilter, hx⟩
    · rintro ⟨p, hp, hfilter, hx⟩
      exact ⟨p, ⟨hp, hfilter⟩, hx⟩

/-- Helper: building a Python dict from pairs with pairwise-distinct keys
keeps every pair, in insertion order. -/
theorem dictOfList_foldl_nodup_keys (l : List (String × ResultData)) :
    ∀ acc : List (String × ResultData),
    ((acc ++ l).map Prod.fst).Nodup →
    l.foldl dictInsert acc = acc ++ l := by
  induction l with
  | nil => intro acc _; simp
  | cons kv kvs ih =>
    intro acc h
    have hnotin : kv.1 ∉ acc.map Prod.fst := by
      intro hmem
      have h2 : ((acc.map Prod.fst) ++
          (kv.1 :: kvs.map Prod.fst)).Nodup := by
        simpa using h
      exact (List.disjoint_of_nodup_append h2) hmem (List.mem_cons_self _ _)
    have hany : acc.any (fun p => p.1 = kv.1) = false := by
      rw [List.any_eq_false]
      intro p hp
      simp only [decide_eq_true_eq]
      intro heq
      exact hnotin (heq ▸ List.mem_map_of_mem Prod.fst hp)
    simp only [List.foldl_cons]
    rw [dictInsert, hany]
    simp only [Bool.false_eq_true, if_false]
    rw [ih (acc ++ [kv]) (by simpa using h)]
    simp

/-- Helper: re-importing an exported result record under its name key
rebuilds the original result. -/
theorem result_ofData_export (r : Result) :
    Result.ofData r.export r.name = r := rfl

/-- C5: saving N accumulated results (test names unique within the run)
and loading them back reconstructs exactly the original list — every
record's name, outcome, log entries, duration and note, in the original
insertion order. -/
theorem results_save_load_roundtrip (st : ExecuteState) (rs : List Result)
    (h : (rs.map Result.name).Nodup) :
    (Execute.load st (Except.ok (Execute.saveStore rs))).results = rs := by
  show (Execute.saveStore rs).map (fun td => Result.ofData td.2 td.1) = rs
  unfold Execute.saveStore dictOfList
  rw [dictOfList_foldl_nodup_keys _ []
    (by simpa [List.map_map, Function.comp_def] using h)]
  simp only [List.nil_append, List.map_map]
  have : ((fun td : String × ResultData => Result.ofData td.2 td.1) ∘
      fun r : Result => (r.name, r.export)) = id := by
    funext r
    exact result_ofData_export r
  rw [this, List.map_id]

/-- Witness for C5 at a concrete two-element results list with distinct
names. -/
theorem results_save_load_roundtrip_witness :
    (Execute.load ⟨Status.unset, []⟩
      (Except.ok (Execute.saveStore
        [⟨"/t/a", "pass", ResultLog.one "data/t/a/output.txt",
          some "00:00:01", none⟩,
         ⟨"/t/b", "error", ResultLog.many ["data/t/b/output.txt"],
          some "00:00:02", some "timeout"⟩]))).results =
      [⟨"/t/a", "pass", ResultLog.one "data/t/a/output.txt",
        some "00:00:01", none⟩,
       ⟨"/t/b", "error", ResultLog.many ["data/t/b/output.txt"],
        some "00:00:02", some "timeout"⟩] :=
  results_save_load_roundtrip ⟨Status.unset, []⟩ _ (by decide)

/-- Helper: the invocation trace of the per-guest loop is the enabled
phases in order, paired with the guest. -/
theorem runPhasesOnGuest_fst (g : Nat) (l : List (Nat × Phase)) :
    (runPhasesOnGuest g l).1 =
      (l.filter (fun ip => ip.2.enabled g)).map (fun ip => (g, ip.1)) := by
  induction l with
  | nil => rfl
  | cons ip rest ih =>
    by_cases he : ip.2.enabled g <;> simp [runPhasesOnGuest, he, ih]

/-- Helper: when every phase is an `ExecutePlugin`, the per-guest loop
collects exactly the results of the enabled phases, so its length is the
sum of the per-invocation counts. -/
theorem runPhasesOnGuest_snd_length (g : Nat) (l : List (Nat × Phase))
    (h : ∀ ip ∈ l, ip.2.isExecutePlugin = true) :
    (runPhasesOnGuest g l).2.length =
      ((l.filter (fun ip => ip.2.enabled g)).map
        (fun ip => (ip.2.resultsOn g).length)).sum := by
  induction l with
  | nil => rfl
  | cons ip rest ih =>
    have hip := h ip (List.mem_cons_self _ _)
    have hrest : ∀ q ∈ rest, q.2.isExecutePlugin = true :=
      fun q hq => h q (List.mem_cons_of_mem _ hq)
    by_cases he : ip.2.enabled g <;>
      simp [runPhasesOnGuest, he, hip, ih hrest]

/-- Helper: the outer loop's trace is the concatenation of the per-guest
traces, guests in order. -/
theorem runLoop_fst (ph : List (Nat × Phase)) (gs : List Nat) :
    (runLoop ph gs).1 = gs.flatMap (fun g => (runPhasesOnGuest g ph).1) := by
  induction gs with
  | nil => rfl
  | cons g rest ih => simp [runLoop, ih]

/-- Helper: the outer loop's result count is the sum of the per-guest
counts. -/
theorem runLoop_snd_length (ph : List (Nat × Phase)) (gs : List Nat) :
    (runLoop ph gs).2.length =
      (gs.map (fun g => (runPhasesOnGuest g ph).2.length)).sum := by
  induction gs with
  | nil => rfl
  | cons g rest ih => simp [runLoop, ih]

/-- Helper: filtering and mapping an enumerated list through functions of
the element only is independent of the indices. -/
theorem enumFrom_filter_map_snd {α : Type} (p : Phase → Bool)
    (f : Phase → α) (l : List Phase) :
    ∀ n : Nat,
    ((List.enumFrom n l).filter (fun ip => p ip.2)).map (fun ip => f ip.2) =
      (l.filter p).map f := by
  induction l with
  | nil => intro n; rfl
  | cons a rest ih =>
    intro n
    by_cases hp : p a <;> simp [List.enumFrom, hp, ih]

/-- Helper: an element of an enumerated list is an element of the list. -/
theorem snd_mem_of_mem_enumFrom (l : List Phase) :
    ∀ (n : Nat) (ip : Nat × Phase), ip ∈ List.enumFrom n l → ip.2 ∈ l := by
  induction l with
  | nil => intro n ip h; simp [List.enumFrom] at h
  | cons a rest ih =>
    intro n ip h
    rw [List.enumFrom] at h
    rcases List.mem_cons.mp h with rfl | h
    · exact List.mem_cons_self _ _
    · exact List.mem_cons_of_mem _ (ih (n + 1) ip h)

/-- C6: `Execute.go()` on a not-yet-done step with guests available
invokes `phase.go(guest)` exactly once per (guest, enabled phase) pair,
iterating guests in order and phases in order within each guest, and the
final accumulated results list length equals the sum of the per-invocation
result counts. -/
theorem execute_go_fanout (st : ExecuteState) (guests : List Nat)
    (phases : List Phase)
    (h1 : st.status ≠ Status.done) (h2 : guests ≠ [])
    (h3 : st.results = [])
    (h4 : ∀ p ∈ phases, p.isExecutePlugin = true) :
    Execute.go st guests phases =
      ExecGoResult.ok
        ⟨⟨Status.done, (runLoop phases.enum guests).2⟩,
         [summaryLine (runLoop phases.enum guests).2],
         guests.flatMap (fun g =>
           (phases.enum.filter (fun ip => ip.2.enabled g)).map
             (fun ip => (g, ip.1))),
         [Execute.saveStore (runLoop phases.enum guests).2]⟩ ∧
    (runLoop phases.enum guests).2.length =
      (guests.map (fun g =>
        ((phases.filter (fun p => p.enabled g)).map
          (fun p => (p.resultsOn g).length)).sum)).sum := by
  have hne : guests.isEmpty = false := by
    cases guests with
    | nil => exact absurd rfl h2
    | cons g gs => rfl
  constructor
  · unfold Execute.go
    rw [if_neg h1, hne]
    simp only [Bool.false_eq_true, if_false, h3, List.nil_append]
    have htrace : (fun g => (runPhasesOnGuest g phases.enum).1) =
        (fun g => (phases.enum.filter (fun ip => ip.2.enabled g)).map
          (fun ip => (g, ip.1))) :=
      funext fun g => runPhasesOnGuest_fst g phases.enum
    rw [runLoop_fst, htrace]
  · rw [runLoop_snd_length]
    have hcount : (fun g => (runPhasesOnGuest g phases.enum).2.length) =
        (fun g => ((phases.filter (fun p => p.enabled g)).map
          (fun p => (p.resultsOn g).length)).sum) := by
      funext g
      rw [runPhasesOnGuest_snd_length g phases.enum
        (fun ip hip => h4 ip.2 (snd_mem_of_mem_enumFrom phases 0 ip hip))]
      exact congrArg List.sum (enumFrom_filter_map_snd (fun p => p.enabled g)
        (fun p => (p.resultsOn g).length) phases 0)
    rw [hcount]

/-- Witness for C6: the concrete phase run on two guests. -/
theorem execute_go_fanout_witness :
    (Execute.go ⟨Status.todo, []⟩ [0, 1] [fanoutPhase] =
      ExecGoResult.ok
        ⟨⟨Status.done, (runLoop [fanoutPhase].enum [0, 1]).2⟩,
         [summaryLine (runLoop [fanoutPhase].enum [0, 1]).2],
         [0, 1].flatMap (fun g =>
           ([fanoutPhase].enum.filter (fun ip => ip.2.enabled g)).map
             (fun ip => (g, ip.1))),
         [Execute.saveStore (runLoop [fanoutPhase].enum [0, 1]).2]⟩) ∧
    (runLoop [fanoutPhase].enum [0, 1]).2.length =
      ([0, 1].map (fun g =>
        (([fanoutPhase].filter (fun p => p.enabled g)).map
          (fun p => (p.resultsOn g).length)).sum)).sum :=
  execute_go_fanout ⟨Status.todo, []⟩ [0, 1] [fanoutPhase]
    (by decide) (by decide) rfl
    (by
      intro p hp
      rcases List.mem_singleton.mp hp with rfl
      rfl)

/-- C3: `check_beakerlib` applies its checks in strict precedence order:
unreadable `TestResults` file yields `error` with the missing-results
note; a missing `TESTRESULT_RESULT_STRING` or `TESTRESULT_STATE` (state
matched whether quoted or unquoted) yields `error` with the missing-field
note regardless of the other field; the timeout sentinel yields `error`
with note `timeout`, taking precedence over the state; a non-`complete`
state yields `error` with a note quoting the state, never the raw result
string; otherwise the outcome is the lower-cased parsed result string. -/
theorem check_beakerlib_precedence (workdir : String) (t : Test)
    (content : List Char) (msg : String) (oe je : Bool) :
    ((check_beakerlib workdir t (Except.error msg) oe je).1.result =
        "error" ∧
     (check_beakerlib workdir t (Except.error msg) oe je).1.note =
        some "beakerlib: TestResults FileError") ∧
    ((findResultString content = none ∨ findState content = none) →
      (check_beakerlib workdir t (Except.ok content) oe je).1.result =
        "error" ∧
      (check_beakerlib workdir t (Except.ok content) oe je).1.note =
        some "beakerlib: Result/State missing") ∧
    (∀ r s, findResultString content = some r → findState content = some s →
      t.returncode = PROCESS_TIMEOUT →
      (check_beakerlib workdir t (Except.ok content) oe je).1.result =
        "error" ∧
      (check_beakerlib workdir t (Except.ok content) oe je).1.note =
        some "timeout" ∧
      (check_beakerlib workdir t (Except.ok content) oe je).2 =
        [(data_path_full workdir t.name TEST_OUTPUT_FILENAME,
          timeoutHintText t)]) ∧
    (∀ r s, findResultString content = some r → findState content = some s →
      t.returncode ≠ PROCESS_TIMEOUT → s ≠ "complete".toList →
      (check_beakerlib workdir t (Except.ok content) oe je).1.result =
        "error" ∧
      (check_beakerlib workdir t (Except.ok content) oe je).1.note =
        some ("beakerlib: State \x27" ++ s.asString ++ "\x27")) ∧
    (∀ r s, findResultString content = some r → findState content = some s →
      t.returncode ≠ PROCESS_TIMEOUT → s = "complete".toList →
      (check_beakerlib workdir t (Except.ok content) oe je).1.result =
        lowerChars r ∧
      (check_beakerlib workdir t (Except.ok content) oe je).1.note =
        none) ∧
    (findState "TESTRESULT_STATE=\"complete\"".toList =
        some "complete".toList ∧
     findState "TESTRESULT_STATE=complete".toList =
        some "complete".toList) := by
  refine ⟨⟨rfl, rfl⟩, ?_, ?_, ?_, ?_, by decide, by decide⟩
  · intro hmiss
    rcases hmiss with hm | hm
    · cases hs : findState content <;>
        simp [check_beakerlib, hm, hs]
    · cases hr : findResultString content <;>
        simp [check_beakerlib, hm, hr]
  · intro r s hr hs ht
    simp [check_beakerlib, hr, hs, ht]
  · intro r s hr hs ht hst
    have hst2 : s ≠ ['c', 'o', 'm', 'p', 'l', 'e', 't', 'e'] := hst
    simp [check_beakerlib, hr, hs, ht, hst2]
  · intro r s hr hs ht hst
    simp [check_beakerlib, hr, hs, ht, hst]

/-- Witness for C3: a timed-out beakerlib test whose results blob parses
to state `running`, exercising the timeout-over-state precedence. -/
theorem check_beakerlib_precedence_witness :
    (check_beakerlib "/w" ⟨"/t", 124, "5m", "1s"⟩
      (Except.ok
        "TESTRESULT_RESULT_STRING=PASS\nTESTRESULT_STATE=\"running\"\n".toList)
      true true).1.result = "error" ∧
    (check_beakerlib "/w" ⟨"/t", 124, "5m", "1s"⟩
      (Except.ok
        "TESTRESULT_RESULT_STRING=PASS\nTESTRESULT_STATE=\"running\"\n".toList)
      true true).1.note = some "timeout" ∧
    (check_beakerlib "/w" ⟨"/t", 124, "5m", "1s"⟩
      (Except.ok
        "TESTRESULT_RESULT_STRING=PASS\nTESTRESULT_STATE=\"running\"\n".toList)
      true true).2 =
      [(data_path_full "/w" "/t" TEST_OUTPUT_FILENAME,
        timeoutHintText ⟨"/t", 124, "5m", "1s"⟩)] :=
  (check_beakerlib_precedence "/w" ⟨"/t", 124, "5m", "1s"⟩
    "TESTRESULT_RESULT_STRING=PASS\nTESTRESULT_STATE=\"running\"\n".toList
    "unused" true true).2.2.1 "PASS".toList "running".toList
    (by decide) (by decide) rfl

end Tmt
